import Mathlib

/-!
Verification of the SpeakFlow Firebase script-generation backend
(`functions/src/index.ts`): payload validation, personalization coverage,
template rendering, chunking instructions, LLM-response sanitization and the
`generateScript` orchestrator, shallowly embedded in Lean.

Modelling conventions: JavaScript numbers are IEEE-754 binary64 values,
carried as the exact rationals they denote (`JSNum` adds NaN and the two
infinities where the code can observe them); `Number(string)` parses to an
exact rational and then rounds to binary64 (round half to even, overflowing to
the infinities) via `toDouble`. JSON values are the inductive `JValue`, with
objects as association lists with unique keys (the shape `JSON.parse`
produces) and `JValue.num` carrying the value of a parsed JSON number — for
anything `JSON.parse` can return, a binary64 value. Decimal rendering of
non-integral numbers and `ToNumber` on composite objects are abstracted at the
points noted below, none of which any theorem depends on.
-/

set_option maxHeartbeats 1000000
set_option maxRecDepth 16384

namespace SpeakFlow

/-- Left curly brace, named so string literals in this file stay brace-free. -/
def lbrace : Char := Char.ofNat 123

/-- Right curly brace. -/
def rbrace : Char := Char.ofNat 125

/-- The characters JavaScript treats as whitespace (`\s`, `String.prototype.trim`). -/
def jsSpaceChars : List Char :=
  [' ', '\t', '\n', '\r', Char.ofNat 11, Char.ofNat 12, Char.ofNat 160,
   Char.ofNat 0x1680, Char.ofNat 0x2000, Char.ofNat 0x2001, Char.ofNat 0x2002,
   Char.ofNat 0x2003, Char.ofNat 0x2004, Char.ofNat 0x2005, Char.ofNat 0x2006,
   Char.ofNat 0x2007, Char.ofNat 0x2008, Char.ofNat 0x2009, Char.ofNat 0x200A,
   Char.ofNat 0x2028, Char.ofNat 0x2029, Char.ofNat 0x202F, Char.ofNat 0x205F,
   Char.ofNat 0x3000, Char.ofNat 0xFEFF]

/-- JavaScript whitespace test. -/
def isJsSpace (c : Char) : Bool := decide (c ∈ jsSpaceChars)

/-- JavaScript `\w` character class: ASCII alphanumerics and underscore. -/
def isWordChar (c : Char) : Bool := c.isAlphanum || c == '_'

/-- Character class `[\w.]` used by the placeholder regex in `renderTemplate`. -/
def isWordDot (c : Char) : Bool := isWordChar c || c == '.'

/-- Core of `String.prototype.trim`: drop JS whitespace from both ends. -/
def jsTrimCore (l : List Char) : List Char :=
  ((l.dropWhile isJsSpace).reverse.dropWhile isJsSpace).reverse

/-- JavaScript `String.prototype.trim`. -/
def jsTrim (s : String) : String := String.mk (jsTrimCore s.data)

/-- Join a list of strings with a separator, modelling `Array.prototype.join`. -/
def joinWith (sep : String) : List String → String
  | [] => ""
  | [x] => x
  | x :: xs => x ++ sep ++ joinWith sep xs

/-- JSON values, the result type of `JSON.parse` (and the type of `request.data`). -/
inductive JValue where
  | null
  | bool (b : Bool)
  | num (q : ℚ)
  | str (s : String)
  | arr (elems : List JValue)
  | obj (fields : List (String × JValue))

/-- Whether a `JValue` is JSON `null`. -/
def JValue.isNull : JValue → Bool
  | .null => true
  | _ => false

/-- Whether a `JValue` is an object (the non-array, non-null `typeof object` case). -/
def JValue.isObj : JValue → Bool
  | .obj _ => true
  | _ => false

/-- Whether a `JValue` is an array (`Array.isArray`). -/
def JValue.isArr : JValue → Bool
  | .arr _ => true
  | _ => false

/-- Property lookup on an object's field list (keys unique, as from `JSON.parse`). -/
def alookup (kvs : List (String × JValue)) (k : String) : Option JValue :=
  (kvs.find? (fun p => p.1 == k)).map (fun p => p.2)

/-- JavaScript numbers as the code observes them: a finite value (modelled as an
exact rational), NaN, or a signed infinity. -/
inductive JSNum where
  | num (q : ℚ)
  | nan
  | inf
  | ninf
deriving DecidableEq

/-- Whether a `JSNum` is finite (`Number.isFinite`). -/
def JSNum.isFinite : JSNum → Bool
  | .num _ => true
  | _ => false

/-- JavaScript truthiness of a number: false exactly for 0 and NaN. -/
def JSNum.truthy : JSNum → Bool
  | .num q => decide (q ≠ 0)
  | .nan => false
  | .inf => true
  | .ninf => true

/-- Decimal value of a digit list (most significant first). -/
def decDigitsVal (l : List Char) : ℕ :=
  l.foldl (fun acc c => acc * 10 + (c.toNat - 48)) 0

/-- Digit value in a given radix, for the `0x`/`0o`/`0b` literal forms. -/
def radixDigitVal (radix : ℕ) (c : Char) : Option ℕ :=
  let v : ℕ :=
    if c.isDigit then c.toNat - 48
    else if 'a' ≤ c ∧ c ≤ 'f' then c.toNat - 87
    else if 'A' ≤ c ∧ c ≤ 'F' then c.toNat - 55
    else 99
  if v < radix then some v else none

/-- Value of a non-decimal integer literal body, if every char is a valid digit. -/
def radixVal (radix : ℕ) : List Char → Option ℕ
  | [] => some 0
  | c :: cs =>
    match radixDigitVal radix c, radixVal radix cs with
    | some d, some rest => some (d * radix ^ cs.length + rest)
    | _, _ => none

/-- Fuel-based floor of the base-2 logarithm of a natural number, structural
so that it reduces inside the kernel; `natLog2` supplies enough fuel. -/
def natLog2F : ℕ → ℕ → ℕ
  | 0, _ => 0
  | fuel + 1, n => if n ≤ 1 then 0 else natLog2F fuel (n / 2) + 1

/-- Floor of the base-2 logarithm of a natural number (0 for 0 and 1). -/
def natLog2 (n : ℕ) : ℕ := natLog2F n n

/-- Round the fraction `n / d` (with `d > 0`) to the nearest natural number,
ties to even. -/
def roundHalfEvenND (n d : ℕ) : ℕ :=
  let k := n / d
  let r := n % d
  if 2 * r < d then k
  else if d < 2 * r then k + 1
  else if k % 2 = 0 then k else k + 1

/-- Floor of the base-2 logarithm of the positive fraction `n / d`. -/
def floorLog2ND (n d : ℕ) : ℤ :=
  let e0 : ℤ := (natLog2 n : ℤ) - (natLog2 d : ℤ)
  if 0 ≤ e0 then (if d * 2 ^ e0.toNat ≤ n then e0 else e0 - 1)
  else (if d ≤ n * 2 ^ (-e0).toNat then e0 else e0 - 1)

/-- Round an exact rational to the nearest IEEE-754 binary64 value (round
half to even), overflowing to the infinities and flushing tiny values to
zero: the value a JavaScript `Number` actually stores. The significand is
rounded at the unit-in-the-last-place exponent `ulp` (normal numbers carry
53 significant bits; below 2^-1022 the spacing is the fixed subnormal
2^-1074). -/
def toDouble (q : ℚ) : JSNum :=
  if q.num = 0 then .num 0
  else
    let n : ℕ := q.num.natAbs
    let d : ℕ := q.den
    let e : ℤ := floorLog2ND n d
    let ulp : ℤ := if e < -1022 then -1074 else e - 52
    let m : ℕ :=
      if 0 ≤ ulp then roundHalfEvenND n (d * 2 ^ ulp.toNat)
      else roundHalfEvenND (n * 2 ^ (-ulp).toNat) d
    if decide (1023 ≤ e) && decide (2 ^ ((1024 : ℤ) - ulp).toNat ≤ m) then
      (if q.num < 0 then JSNum.ninf else JSNum.inf)
    else
      let sign : ℤ := if q.num < 0 then -1 else 1
      let r : ℚ :=
        if 0 ≤ ulp then mkRat (sign * ((m : ℤ) * ((2 ^ ulp.toNat : ℕ) : ℤ))) 1
        else mkRat (sign * (m : ℤ)) (2 ^ (-ulp).toNat)
      .num r

/-- Parse the optional exponent suffix of a decimal literal whose mantissa is
the exact fraction `num / den`; the remainder must be fully consumed. The
value is assembled in integer arithmetic and converted once with `mkRat`. -/
def matchExp (num den : ℕ) : List Char → Option ℚ
  | [] => some (mkRat num den)
  | c :: rest =>
    if c == 'e' || c == 'E' then
      let signed : Bool × List Char :=
        match rest with
        | '+' :: t => (true, t)
        | '-' :: t => (false, t)
        | t => (true, t)
      let digits := signed.2.takeWhile Char.isDigit
      let leftover := signed.2.dropWhile Char.isDigit
      if digits.length = 0 ∨ leftover ≠ [] then none
      else
        let e := decDigitsVal digits
        some (if signed.1 then mkRat (num * 10 ^ e) den
              else mkRat num (den * 10 ^ e))
    else none

/-- Parse an unsigned decimal numeric literal (digits, optional fraction,
optional exponent) to its exact rational value, consuming the whole input. -/
def parseDec (l : List Char) : Option ℚ :=
  let intPart := l.takeWhile Char.isDigit
  let r1 := l.dropWhile Char.isDigit
  match r1 with
  | '.' :: r2 =>
    let fracPart := r2.takeWhile Char.isDigit
    let r3 := r2.dropWhile Char.isDigit
    if intPart.length = 0 ∧ fracPart.length = 0 then none
    else
      matchExp (decDigitsVal intPart * 10 ^ fracPart.length + decDigitsVal fracPart)
        (10 ^ fracPart.length) r3
  | _ =>
    if intPart.length = 0 then none
    else matchExp (decDigitsVal intPart) 1 r1

/-- Parse an unsigned decimal literal or the `Infinity` keyword; a decimal
value is rounded to the binary64 value `Number()` stores. -/
def parseDecOrInf (l : List Char) : Option JSNum :=
  if l = "Infinity".data then some .inf
  else (parseDec l).map toDouble

/-- Parse a trimmed, non-empty JS string numeric literal
(`StringNumericLiteral`): a signed decimal/`Infinity`, or an unsigned
`0x`/`0o`/`0b` integer. -/
def parseStrNum (l : List Char) : Option JSNum :=
  match l with
  | '0' :: c :: rest =>
    if c == 'x' || c == 'X' then
      if rest ≠ [] then (radixVal 16 rest).map (fun n => toDouble (n : ℚ)) else none
    else if c == 'o' || c == 'O' then
      if rest ≠ [] then (radixVal 8 rest).map (fun n => toDouble (n : ℚ)) else none
    else if c == 'b' || c == 'B' then
      if rest ≠ [] then (radixVal 2 rest).map (fun n => toDouble (n : ℚ)) else none
    else parseDecOrInf l
  | '+' :: rest => parseDecOrInf rest
  | '-' :: rest =>
    (parseDecOrInf rest).map (fun j =>
      match j with
      | .num q => .num (-q)
      | .inf => .ninf
      | other => other)
  | _ => parseDecOrInf l

/-- JavaScript `Number(string)`: trim, empty means 0, otherwise parse a
numeric literal and round it to binary64 (so large literals such as `1e400`
overflow to Infinity, and literals beyond 2^53 round to the nearest
representable double), defaulting to NaN. -/
def strToNumber (s : String) : JSNum :=
  let l := jsTrimCore s.data
  if l = [] then .num 0
  else
    match parseStrNum l with
    | some j => j
    | none => .nan

/-- Print a `ℚ` the way JavaScript prints the corresponding number, for the
integral values this development evaluates; decimal rendering of non-integral
values is abstracted. -/
def qToString (q : ℚ) : String :=
  if q.den = 1 then toString q.num else toString q

/-- JavaScript `String(v)` on a JSON value. Array elements convert with `null`
becoming the empty string, as in `Array.prototype.join`. -/
def jToStr : JValue → String
  | .null => "null"
  | .bool b => if b then "true" else "false"
  | .num q => qToString q
  | .str s => s
  | .obj _ => "[object Object]"
  | .arr l =>
    joinWith "," (l.attach.map (fun x => if x.1.isNull then "" else jToStr x.1))
decreasing_by
  have hm := List.sizeOf_lt_of_mem x.2
  simp only [JValue.arr.sizeOf_spec]
  omega

/-- JavaScript `Number(v)` on the values fed to the sanitizer. `undefined`
(an absent property) is NaN; objects convert through their string form. -/
def toNumber : Option JValue → JSNum
  | none => .nan
  | some .null => .num 0
  | some (.bool b) => .num (if b then 1 else 0)
  | some (.num q) => .num q
  | some (.str s) => strToNumber s
  | some (.arr l) => strToNumber (jToStr (.arr l))
  | some (.obj _) => .nan

/-- Error codes of `HttpsError` as used by the functions. -/
inductive ErrCode where
  | unauthenticated
  | invalidArgument
  | notFound
  | failedPrecondition
  | internal
deriving DecidableEq

/-- An `HttpsError`: a code and a message. -/
structure HttpsErr where
  code : ErrCode
  message : String
deriving DecidableEq

/-- A chunk as produced by the sanitizer's `.map` step in `buildScript`:
`order` coerced to a JS number, `text` coerced to a (trimmed) string. -/
structure CChunk where
  order : JSNum
  text : String
deriving DecidableEq

/-- A chunk of the final response: zero-based position and non-empty text. -/
structure ScriptChunk where
  order : ℕ
  text : String
deriving DecidableEq

/-- The `GenerateScriptResponse` payload. -/
structure ScriptResponse where
  lessonId : String
  title : String
  fullText : String
  chunks : List ScriptChunk
deriving DecidableEq

/-- Property access `v[k]`, which throws a TypeError (modelled as `.error ()`)
when the receiver is `null`, and yields `undefined` (modelled as `none`) on
primitives, arrays and absent keys. -/
def propAccess (v : JValue) (k : String) : Except Unit (Option JValue) :=
  match v with
  | .null => .error ()
  | .obj kvs => .ok (alookup kvs k)
  | _ => .ok none

/-- Order coercion of the sanitizer's `.map` body (line 208): keep a numeric
`order` as is, otherwise coerce with `Number(...)`. -/
def coerceOrder (ov : Option JValue) : JSNum :=
  match ov with
  | some (.num q) => JSNum.num q
  | _ => toNumber ov

/-- Text coercion of the sanitizer's `.map` body (line 209): trim a string
`text`, otherwise take the empty string. -/
def coerceText (tv : Option JValue) : String :=
  match tv with
  | some (.str s) => jsTrim s
  | _ => ""

/-- The `.map` body of the sanitizer in `buildScript`
(`functions/src/index.ts` lines 207-210). Accessing the properties of a
`null` entry throws. -/
def coerceChunk (v : JValue) : Except Unit CChunk :=
  match propAccess v "order", propAccess v "text" with
  | .ok ov, .ok tv => .ok { order := coerceOrder ov, text := coerceText tv }
  | _, _ => .error ()

/-- The sanitizer's `.map` over the raw chunk entries; the first thrown
TypeError aborts the whole map. -/
def mapChunks : List JValue → Except Unit (List CChunk)
  | [] => .ok []
  | v :: vs =>
    match coerceChunk v, mapChunks vs with
    | .ok c, .ok cs => .ok (c :: cs)
    | _, _ => .error ()

/-- The sanitizer's `.filter` predicate (line 211): finite order, non-empty text. -/
def keepChunk (c : CChunk) : Bool := c.order.isFinite && c.text.length != 0

/-- The sort key of a surviving chunk: its (finite) coerced order. After the
filter every order is finite; the default is never reached. -/
def ratKey (c : CChunk) : ℚ :=
  match c.order with
  | .num q => q
  | _ => 0

/-- Stable insertion by ascending order key, modelling the ES2019+ stable
`Array.prototype.sort` with comparator `(a, b) => a.order - b.order`:
an element is inserted after every element it ties with. -/
def insertByOrder (c : CChunk) : List CChunk → List CChunk
  | [] => [c]
  | d :: ds => if ratKey c ≤ ratKey d then c :: d :: ds else d :: insertByOrder c ds

/-- Stable sort of the surviving chunks by ascending coerced order (line 212). -/
def sortByOrder : List CChunk → List CChunk
  | [] => []
  | c :: cs => insertByOrder c (sortByOrder cs)

/-- Re-indexing `.map((chunk, index) => ({order: index, text: chunk.text}))`
(line 213), generalized over the starting index. -/
def reindexFrom (i : ℕ) : List CChunk → List ScriptChunk
  | [] => []
  | c :: cs => { order := i, text := c.text } :: reindexFrom (i + 1) cs

/-- Re-index the sorted survivors to a contiguous zero-based sequence. -/
def reindexChunks (l : List CChunk) : List ScriptChunk := reindexFrom 0 l

/-- The full sanitization of the already-coerced chunk list: drop junk,
stable-sort by coerced order, re-index from zero (lines 211-213). -/
def sanitizeChunks (coerced : List CChunk) : List ScriptChunk :=
  reindexChunks (sortByOrder (coerced.filter keepChunk))

/-- Total property access: like `propAccess` but with `null` yielding
`undefined` instead of throwing, as the spec's wording assumes. -/
def jGetT (v : JValue) (k : String) : Option JValue :=
  match v with
  | .obj kvs => alookup kvs k
  | _ => none

/-- The sanitizer's per-entry coercion as the specification words it, defined
on raw entries directly (a `null` entry contributes
`order = Number(undefined) = NaN` and empty text, hence is dropped). Compared
against the source pipeline, which instead throws on `null` entries. -/
def claimCoerce (v : JValue) : CChunk :=
  { order := coerceOrder (jGetT v "order"), text := coerceText (jGetT v "text") }

/-- Sanitization as the spec describes it: coerce, drop, stable-sort, re-index. -/
def claimSanitize (cs : List JValue) : List ScriptChunk :=
  sanitizeChunks (cs.map claimCoerce)

/-- The catch-all `internal` error of `buildScript` (line 228), produced when
the code inside the `try` block throws anything but an `HttpsError`. -/
def internalCatchAll : HttpsErr :=
  ⟨.internal, "Failed to generate lesson script with OpenAI."⟩

/-- The response-processing tail of `buildScript` (lines 203-223), from the
parsed JSON payload to the final response: require a string `fullText` and an
array `chunks`, sanitize, reject an empty survivor list, and fall back to the
joined chunk texts when the trimmed `fullText` is empty. TypeErrors from
property access on `null` are caught by the surrounding `try` (line 224). -/
def buildScriptCore (lessonId title : String) (parsed : JValue) :
    Except HttpsErr ScriptResponse :=
  match propAccess parsed "fullText", propAccess parsed "chunks" with
  | .error _, _ => .error internalCatchAll
  | _, .error _ => .error internalCatchAll
  | .ok ftv, .ok chv =>
    match ftv, chv with
    | some (.str ft), some (.arr rawChunks) =>
      match mapChunks rawChunks with
      | .error _ => .error internalCatchAll
      | .ok coerced =>
        if (sanitizeChunks coerced).length = 0 then
          .error ⟨.internal, "OpenAI response did not include any usable chunks."⟩
        else
          .ok { lessonId := lessonId, title := title,
                fullText :=
                  if 0 < (jsTrim ft).length then jsTrim ft
                  else joinWith " " ((sanitizeChunks coerced).map (fun c => c.text)),
                chunks := sanitizeChunks coerced }
    | _, _ => .error ⟨.internal, "OpenAI response was missing required fields."⟩

/-- The validated `GenerateScript` command produced by
`parseGenerateScriptPayload`; the personalization map is an association list
with the (unique) keys in `Object.entries` order. -/
structure GenerateScriptCommand where
  lessonId : String
  languageCode : String
  targetLevel : String
  personalization : List (String × String)
deriving DecidableEq

/-- `expectString` (lines 76-81): require a string with non-whitespace content
and return it trimmed, else fail naming the field. -/
def expectString (v : Option JValue) (field : String) : Except HttpsErr String :=
  match v with
  | some (.str s) =>
    if (jsTrim s).length = 0 then
      .error ⟨.invalidArgument, field ++ " must be a non-empty string."⟩
    else .ok (jsTrim s)
  | _ => .error ⟨.invalidArgument, field ++ " must be a non-empty string."⟩

/-- The `for (const [key, value] of personalizationEntries)` loop
(lines 67-72): fail on the first non-string value, naming its key, else trim
and store every value. Assigning `personalization["__proto__"] = string` on
the plain object literal triggers the inherited `__proto__` setter, which
ignores non-object values, so no own entry is created for that key. -/
def buildPersonalization : List (String × JValue) → Except HttpsErr (List (String × String))
  | [] => .ok []
  | (k, v) :: rest =>
    match v with
    | .str s =>
      match buildPersonalization rest with
      | .ok tail => .ok (if k = "__proto__" then tail else (k, jsTrim s) :: tail)
      | .error e => .error e
    | _ => .error ⟨.invalidArgument, "personalization value for " ++ k ++ " must be a string."⟩

/-- `parseGenerateScriptPayload` (lines 48-74). -/
def parseGenerateScriptPayload (data : JValue) : Except HttpsErr GenerateScriptCommand :=
  match data with
  | .obj kvs =>
    match expectString (alookup kvs "lessonId") "lessonId" with
    | .error e => .error e
    | .ok lessonId =>
      match expectString (alookup kvs "languageCode") "languageCode" with
      | .error e => .error e
      | .ok languageCode =>
        match expectString (alookup kvs "targetLevel") "targetLevel" with
        | .error e => .error e
        | .ok targetLevel =>
          match alookup kvs "personalization" with
          | some (.obj pkvs) =>
            match buildPersonalization pkvs with
            | .error e => .error e
            | .ok personalization =>
              .ok { lessonId := lessonId, languageCode := jsTrim languageCode,
                    targetLevel := jsTrim targetLevel,
                    personalization := personalization }
          | _ => .error ⟨.invalidArgument, "personalization must be an object of string values."⟩
  | _ => .error ⟨.invalidArgument, "Request payload must be an object."⟩

/-- Lookup in the validated personalization map. -/
def plookup (p : List (String × String)) (k : String) : Option String :=
  (p.find? (fun e => e.1 == k)).map (fun e => e.2)

/-- The own property names of `Object.prototype`. A property read on a plain
object with no own entry for one of these names finds the inherited member on
the prototype chain — a function, or the prototype object itself for the
`__proto__` accessor — which is truthy. -/
def objectProtoKeys : List String :=
  ["constructor", "hasOwnProperty", "isPrototypeOf", "propertyIsEnumerable",
   "toLocaleString", "toString", "valueOf", "__defineGetter__",
   "__defineSetter__", "__lookupGetter__", "__lookupSetter__", "__proto__"]

/-- JavaScript falsiness of `personalization[field]` for a plain string-valued
object: an own entry is falsy exactly when it is the empty string; with no own
entry the read falls back to the prototype chain, so an `Object.prototype`
member name yields a truthy inherited value and only other names give the
falsy `undefined`. -/
def pFalsy (p : List (String × String)) (field : String) : Bool :=
  match plookup p field with
  | none => !(decide (field ∈ objectProtoKeys))
  | some v => v == ""

/-- `ensurePersonalizationCoverage` (lines 83-91). -/
def ensurePersonalizationCoverage (requiredFields : List String)
    (p : List (String × String)) : Except HttpsErr Unit :=
  if (requiredFields.filter (fun f => pFalsy p f)).length = 0 then .ok ()
  else
    .error ⟨.invalidArgument,
      "Missing personalization values for: " ++
        joinWith ", " (requiredFields.filter (fun f => pFalsy p f)) ++ "."⟩

/-- Match the placeholder regex of `renderTemplate` at the head of the input:
two left braces, optional whitespace, a non-empty `[\w.]+` key, optional
whitespace, two right braces. Returns the key and the match length. -/
def tryMatch (l : List Char) : Option (String × ℕ) :=
  match l with
  | c1 :: c2 :: rest =>
    if c1 == lbrace && c2 == lbrace then
      let ws1 := rest.takeWhile isJsSpace
      let r1 := rest.dropWhile isJsSpace
      let key := r1.takeWhile isWordDot
      let r2 := r1.dropWhile isWordDot
      if key.length = 0 then none
      else
        let ws2 := r2.takeWhile isJsSpace
        let r3 := r2.dropWhile isJsSpace
        match r3 with
        | d1 :: d2 :: _ =>
          if d1 == rbrace && d2 == rbrace then
            some (String.mk key, 2 + ws1.length + key.length + ws2.length + 2)
          else none
        | _ => none
    else none
  | _ => none

/-- One global-replace scan of `template.replace(/{{\s*([\w.]+)\s*}}/g, ...)`:
at each position, the leftmost match is replaced (by the mapped value when the
key is present, else left verbatim) and scanning resumes after it. Fuel is one
unit per emitted step, so the input length is always enough. -/
def renderFuel (m : String → Option String) : ℕ → List Char → List Char
  | 0, l => l
  | _ + 1, [] => []
  | fuel + 1, c :: cs =>
    match tryMatch (c :: cs) with
    | some kn =>
      (match m kn.1 with
       | some v => v.data
       | none => (c :: cs).take kn.2) ++ renderFuel m fuel ((c :: cs).drop kn.2)
    | none => c :: renderFuel m fuel cs

/-- `renderTemplate` (lines 93-98), over an abstract replacement mapping. -/
def renderTemplate (template : String) (replacements : String → Option String) : String :=
  String.mk (renderFuel replacements template.data.length template.data)

/-- `humanizeKey`'s `\b\w` pass: uppercase every word character that starts a
word, tracking whether the previous character was a word character. -/
def upperBoundaries : Bool → List Char → List Char
  | _, [] => []
  | prevWord, c :: cs =>
    (if isWordChar c && !prevWord then c.toUpper else c) ::
      upperBoundaries (isWordChar c) cs

/-- `humanizeKey` (lines 100-102): underscores to spaces, capitalize word
starts, trim. -/
def humanizeKey (k : String) : String :=
  jsTrim (String.mk (upperBoundaries false
    (k.data.map (fun c => if c == '_' then ' ' else c))))

/-- Stable insertion for the default lexicographic `Array.prototype.sort()`
over the personalization keys. -/
def insertStr (s : String) : List String → List String
  | [] => [s]
  | t :: ts => if s ≤ t then s :: t :: ts else t :: insertStr s ts

/-- Default JS sort of a string list (lexicographic by code unit). -/
def sortStrings : List String → List String
  | [] => []
  | s :: ss => insertStr s (sortStrings ss)

/-- The `personalizationSummary` built in `buildScript` (lines 115-118):
sorted keys, humanized, paired with their values, joined by `"; "`. -/
def personalizationSummary (p : List (String × String)) : String :=
  joinWith "; " ((sortStrings (p.map Prod.fst)).map
    (fun k => humanizeKey k ++ ": " ++ ((plookup p k).getD "")))

/-- A lesson document as `generateScript` reads it from Firestore. The cast
`as LessonTemplate` is unchecked; `requiredPersonalizationFields` is the one
field the code re-validates, so it is kept untyped here. -/
structure LessonDoc where
  title : String
  subtitle : String
  requiredPersonalizationFields : JValue
  promptTemplateId : String

/-- The `chunkingStrategy` of a prompt template. -/
structure ChunkingStrategy where
  type : Option String
  maxLength : Option JSNum

/-- A prompt template document. -/
structure PromptTemplate where
  userPrompt : String
  systemPrompt : Option String
  chunkingStrategy : Option ChunkingStrategy

/-- The `replacements` record of `buildScript` (lines 119-127): six fixed keys
with the personalization entries spread in afterwards, so a personalization
entry shadows a fixed key of the same name. -/
def scriptReplacements (lesson : LessonDoc) (languageCode targetLevel uid : String)
    (p : List (String × String)) : String → Option String :=
  fun k =>
    match plookup p k with
    | some v => some v
    | none =>
      if k = "lesson_title" then some lesson.title
      else if k = "lesson_subtitle" then some lesson.subtitle
      else if k = "language_code" then some languageCode
      else if k = "target_level" then some targetLevel
      else if k = "learner_uid" then some uid
      else if k = "personalization_summary" then some (personalizationSummary p)
      else none

/-- The six fixed replacement keys. -/
def fixedReplacementKeys : List String :=
  ["lesson_title", "lesson_subtitle", "language_code", "target_level",
   "learner_uid", "personalization_summary"]

/-- The generic chunking instruction (line 136). -/
def genericChunkInstruction : String :=
  "Split the script into sequential, conversational chunks that cover the full script."

/-- Template-literal rendering of a `JSNum`. -/
def jsNumToString : JSNum → String
  | .num q => qToString q
  | .nan => "NaN"
  | .inf => "Infinity"
  | .ninf => "-Infinity"

/-- The chunking instruction chosen in `buildScript` (lines 133-136):
`chunkingStrategy.maxLength ? ceiling : generic`, a truthiness test. -/
def chunkingInstructions (strategy : Option ChunkingStrategy) : String :=
  match strategy.bind ChunkingStrategy.maxLength with
  | some m =>
    if m.truthy then
      "Split the script into sequential chunks where each chunk is at most " ++
        jsNumToString m ++ " characters."
    else genericChunkInstruction
  | none => genericChunkInstruction

/-- `requireAuth` (lines 40-46): `request.auth?.uid` must be present and
truthy (a non-empty string). -/
def requireAuth (authUid : Option String) : Except HttpsErr String :=
  match authUid with
  | some uid =>
    if uid = "" then
      .error ⟨.unauthenticated, "Anonymous Firebase Authentication is required."⟩
    else .ok uid
  | none => .error ⟨.unauthenticated, "Anonymous Firebase Authentication is required."⟩

/-- Coercion of a required-field entry to a property key, as
`personalization[field]` would coerce it (`String(field)`); the string case is
split out so it reduces without the recursion of `jToStr`. -/
def jFieldName (v : JValue) : String :=
  match v with
  | .str s => s
  | other => jToStr other

/-- Line 254: `Array.isArray(x) ? x : []` on the lesson's
`requiredPersonalizationFields`. -/
def lessonRequiredFields (v : JValue) : List String :=
  match v with
  | .arr l => l.map jFieldName
  | _ => []

/-- The external collaborators of `generateScript`: the two Firestore
collections, as partial maps from document id to document. -/
structure Env where
  lessons : String → Option LessonDoc
  prompts : String → Option PromptTemplate

/-- A callable request: the optional authenticated uid and the raw data. -/
structure RequestModel where
  authUid : Option String
  data : JValue

/-- Everything `generateScript` has assembled when it reaches the external
OpenAI call: the validated inputs and the two fetched documents. -/
structure PreparedCall where
  uid : String
  command : GenerateScriptCommand
  lesson : LessonDoc
  prompt : PromptTemplate

/-- The validation/fetch sequence of `generateScript` (lines 246-263), up to
the point where control passes to the external LLM call: auth, payload
validation, lesson fetch, personalization coverage, prompt-template fetch. -/
def generateScriptValidate (env : Env) (req : RequestModel) :
    Except HttpsErr PreparedCall :=
  match requireAuth req.authUid with
  | .error e => .error e
  | .ok uid =>
    match parseGenerateScriptPayload req.data with
    | .error e => .error e
    | .ok cmd =>
      match env.lessons cmd.lessonId with
      | none => .error ⟨.notFound, "Lesson " ++ cmd.lessonId ++ " does not exist."⟩
      | some lesson =>
        match ensurePersonalizationCoverage
            (lessonRequiredFields lesson.requiredPersonalizationFields)
            cmd.personalization with
        | .error e => .error e
        | .ok _ =>
          match env.prompts lesson.promptTemplateId with
          | none =>
            .error ⟨.failedPrecondition,
              "Prompt template " ++ lesson.promptTemplateId ++
                " referenced by lesson " ++ cmd.lessonId ++ " is missing."⟩
          | some prompt => .ok ⟨uid, cmd, lesson, prompt⟩

/-- A template presented as an alternation of literal text and placeholders
`\x7b\x7b ws1 key ws2 \x7d\x7d`, used to state what `renderTemplate` does to
every placeholder occurrence. -/
inductive Tok where
  | lit (s : String)
  | hole (ws1 key ws2 : String)

/-- The character sequence a token denotes. -/
def flatTokL : Tok → List Char
  | .lit s => s.data
  | .hole ws1 key ws2 =>
    lbrace :: lbrace :: (ws1.data ++ key.data ++ ws2.data ++ [rbrace, rbrace])

/-- The character sequence of a token list. -/
def flatToksL (ts : List Tok) : List Char := (ts.map flatTokL).flatten

/-- What rendering does to one token: literals are copied; a placeholder is
substituted by its mapped value when the key is present, else left verbatim
with its braces. -/
def renderTokL (m : String → Option String) : Tok → List Char
  | .lit s => s.data
  | .hole ws1 key ws2 =>
    match m key with
    | some v => v.data
    | none => flatTokL (.hole ws1 key ws2)

/-- Rendering of a token list. -/
def renderToksL (m : String → Option String) (ts : List Tok) : List Char :=
  (ts.map (renderTokL m)).flatten

/-- A literal segment is safe when it contains no two adjacent left braces and
does not end with a left brace, so no placeholder match can start inside it or
span its right boundary. -/
def litOkB : List Char → Bool
  | [] => true
  | [c] => c != lbrace
  | c1 :: c2 :: t => !(c1 == lbrace && c2 == lbrace) && litOkB (c2 :: t)

/-- Well-formedness of a token: safe literal text, or a placeholder with
whitespace-only padding and a non-empty `[\w.]+` key. -/
def tokOkB : Tok → Bool
  | .lit s => litOkB s.data
  | .hole ws1 key ws2 =>
    ws1.data.all isJsSpace && ws2.data.all isJsSpace &&
      key.data.all isWordDot && !key.data.isEmpty

/-- Replacement map of the spec's rendering example. -/
def exampleMap : String → Option String :=
  fun k => if k = "user_name" then some "Alex" else none

/-- A concrete raw chunk list with out-of-order and junk entries, used to
witness the sanitizer theorems. -/
def chunksFixture : List JValue :=
  [JValue.obj [("order", JValue.num 2), ("text", JValue.str " second ")],
   JValue.obj [("order", JValue.str "1"), ("text", JValue.str "first")],
   JValue.obj [("order", JValue.num 1), ("text", JValue.str "tie")],
   JValue.obj [("order", JValue.str "oops"), ("text", JValue.str "dropped")],
   JValue.obj [("order", JValue.num 0), ("text", JValue.str "   ")],
   JValue.bool true]

/-- A parsed LLM payload built from `chunksFixture` with a blank `fullText`. -/
def parsedFixture : JValue :=
  JValue.obj [("fullText", JValue.str "   "), ("chunks", JValue.arr chunksFixture)]

/-- A parsed LLM payload whose chunks array contains a `null` entry. -/
def parsedNullChunk : JValue :=
  JValue.obj [("fullText", JValue.str "x"),
    ("chunks", JValue.arr [JValue.null,
      JValue.obj [("order", JValue.num 0), ("text", JValue.str "Hi")]])]

/-- A concrete lesson document for the orchestrator witnesses. -/
def lessonFixture : LessonDoc :=
  { title := "Introduce Yourself", subtitle := "Basics",
    requiredPersonalizationFields := JValue.arr [JValue.str "user_name"],
    promptTemplateId := "pt-1" }

/-- A lesson document whose `requiredPersonalizationFields` is not an array. -/
def lessonBadFields : LessonDoc :=
  { title := "Introduce Yourself", subtitle := "Basics",
    requiredPersonalizationFields := JValue.str "oops",
    promptTemplateId := "pt-1" }

/-- A concrete environment: one lesson with a missing prompt template. -/
def envFixture : Env :=
  { lessons := fun i => if i = "L1" then some lessonFixture else none,
    prompts := fun _ => none }

/-- An environment holding `lessonBadFields` and no prompt templates. -/
def envBadFields : Env :=
  { lessons := fun i => if i = "L1" then some lessonBadFields else none,
    prompts := fun _ => none }

/-- A well-formed request payload for lesson `L1`. -/
def goodPayload : JValue :=
  JValue.obj [("lessonId", JValue.str "L1"),
    ("languageCode", JValue.str " en-US "),
    ("targetLevel", JValue.str "B1"),
    ("personalization", JValue.obj [("user_name", JValue.str "Alex")])]

/-- The command `goodPayload` validates to. -/
def goodCommand : GenerateScriptCommand :=
  { lessonId := "L1", languageCode := "en-US", targetLevel := "B1",
    personalization := [("user_name", "Alex")] }

/-! Helper lemmas. -/

theorem space_not_wordDot {c : Char} (h : isJsSpace c = true) : isWordDot c = false := by
  rw [isJsSpace, decide_eq_true_eq] at h
  fin_cases h <;> decide

theorem wordDot_not_space {c : Char} (h : isWordDot c = true) : isJsSpace c = false := by
  cases hs : isJsSpace c with
  | false => rfl
  | true => rw [space_not_wordDot hs] at h; cases h

theorem dropWhile_dropWhile (p : Char → Bool) (l : List Char) :
    (l.dropWhile p).dropWhile p = l.dropWhile p := by
  induction l with
  | nil => rfl
  | cons a t ih =>
    by_cases h : p a = true
    · simp [List.dropWhile_cons, h, ih]
    · simp only [Bool.not_eq_true] at h
      simp [List.dropWhile_cons, h]

theorem trimTail_decomp (p : Char → Bool) (y : List Char) :
    y = (y.reverse.dropWhile p).reverse ++ (y.reverse.takeWhile p).reverse := by
  conv_lhs => rw [← List.reverse_reverse y,
    ← List.takeWhile_append_dropWhile (p := p) (l := y.reverse)]
  rw [List.reverse_append]

theorem dropWhile_head_eq_self (p : Char → Bool) (y : List Char)
    (hy : ∀ a t, y = a :: t → p a = false) : y.dropWhile p = y := by
  cases y with
  | nil => rfl
  | cons a t => simp [List.dropWhile_cons, hy a t rfl]

theorem dropWhile_head_false (p : Char → Bool) (l : List Char) :
    ∀ a t, l.dropWhile p = a :: t → p a = false := by
  intro a t h
  induction l with
  | nil => simp at h
  | cons b u ih =>
    by_cases hb : p b = true
    · simp [List.dropWhile_cons, hb] at h; exact ih h
    · simp only [Bool.not_eq_true] at hb
      simp [List.dropWhile_cons, hb] at h
      exact h.1 ▸ hb

theorem jsTrimCore_idem (l : List Char) : jsTrimCore (jsTrimCore l) = jsTrimCore l := by
  have hstep : ∀ y : List Char, (∀ a t, y = a :: t → isJsSpace a = false) →
      jsTrimCore ((y.reverse.dropWhile isJsSpace).reverse) =
        (y.reverse.dropWhile isJsSpace).reverse := by
    intro y hy
    have hdec := trimTail_decomp isJsSpace y
    have hhead : ∀ a t, (y.reverse.dropWhile isJsSpace).reverse = a :: t →
        isJsSpace a = false := by
      intro a t hat
      refine hy a (t ++ (y.reverse.takeWhile isJsSpace).reverse) ?_
      conv_lhs => rw [hdec]
      rw [hat]
      simp
    unfold jsTrimCore
    rw [dropWhile_head_eq_self _ _ hhead, List.reverse_reverse, dropWhile_dropWhile]
  exact hstep (l.dropWhile isJsSpace) (dropWhile_head_false isJsSpace l)

theorem jsTrim_idem (s : String) : jsTrim (jsTrim s) = jsTrim s := by
  simp [jsTrim, jsTrimCore_idem]

theorem string_mk_data (l : List Char) : (String.mk l).data = l := rfl

theorem string_ne_empty_of_data {s : String} (h : s.data ≠ []) : s ≠ "" := by
  intro he
  subst he
  simp at h

theorem joinWith_space_ne_empty (l : List String)
    (hne : l ≠ []) (hall : ∀ t ∈ l, t ≠ "") : joinWith " " l ≠ "" := by
  match l with
  | [] => exact absurd rfl hne
  | [t] => exact hall t (by simp)
  | t :: u :: rest =>
    intro he
    have hlen := congrArg String.length he
    rw [show joinWith " " (t :: u :: rest) = t ++ " " ++ joinWith " " (u :: rest)
      from rfl] at hlen
    have h1 : (" " : String).length = 1 := rfl
    simp [String.length_append, h1] at hlen

theorem mem_insertByOrder (c x : CChunk) (l : List CChunk) :
    x ∈ insertByOrder c l ↔ x = c ∨ x ∈ l := by
  induction l with
  | nil => simp [insertByOrder]
  | cons d ds ih =>
    by_cases h : ratKey c ≤ ratKey d
    · simp [insertByOrder, h]
    · simp only [insertByOrder, if_neg h, List.mem_cons, ih]
      tauto

theorem mem_sortByOrder (x : CChunk) (l : List CChunk) :
    x ∈ sortByOrder l ↔ x ∈ l := by
  induction l with
  | nil => simp [sortByOrder]
  | cons c cs ih => simp [sortByOrder, mem_insertByOrder, ih]

theorem pairwise_insertByOrder (c : CChunk) (l : List CChunk)
    (h : l.Pairwise (fun a b => ratKey a ≤ ratKey b)) :
    (insertByOrder c l).Pairwise (fun a b => ratKey a ≤ ratKey b) := by
  induction l with
  | nil => simp [insertByOrder]
  | cons d ds ih =>
    rcases List.pairwise_cons.mp h with ⟨hd, hds⟩
    by_cases hc : ratKey c ≤ ratKey d
    · rw [insertByOrder, if_pos hc]
      refine List.pairwise_cons.mpr ⟨?_, h⟩
      intro x hx
      rcases List.mem_cons.mp hx with hx | hx
      · exact hx ▸ hc
      · exact le_trans hc (hd x hx)
    · rw [insertByOrder, if_neg hc]
      refine List.pairwise_cons.mpr ⟨?_, ih hds⟩
      intro x hx
      rcases (mem_insertByOrder c x ds).mp hx with hx | hx
      · exact hx ▸ le_of_lt (lt_of_not_le hc)
      · exact hd x hx

theorem pairwise_sortByOrder (l : List CChunk) :
    (sortByOrder l).Pairwise (fun a b => ratKey a ≤ ratKey b) := by
  induction l with
  | nil => simp [sortByOrder]
  | cons c cs ih => exact pairwise_insertByOrder c (sortByOrder cs) ih

theorem filter_insertByOrder (c : CChunk) (l : List CChunk) (q : ℚ) :
    (insertByOrder c l).filter (fun d => decide (ratKey d = q)) =
      if ratKey c = q then c :: l.filter (fun d => decide (ratKey d = q))
      else l.filter (fun d => decide (ratKey d = q)) := by
  induction l with
  | nil =>
    by_cases hc : ratKey c = q <;> simp [insertByOrder, List.filter, hc]
  | cons d ds ih =>
    by_cases hcd : ratKey c ≤ ratKey d
    · simp only [insertByOrder, if_pos hcd, List.filter_cons]
      by_cases hc : ratKey c = q <;> simp [hc]
    · have hdc : ratKey d < ratKey c := lt_of_not_le hcd
      simp only [insertByOrder, if_neg hcd, List.filter_cons]
      by_cases hd : ratKey d = q
      · have hc : ¬ ratKey c = q := by
          intro hcq
          rw [hcq, ← hd] at hdc
          exact lt_irrefl _ hdc
        simp [hd, hc, ih]
      · by_cases hc : ratKey c = q <;> simp [hd, hc, ih]

theorem filter_sortByOrder (l : List CChunk) (q : ℚ) :
    (sortByOrder l).filter (fun d => decide (ratKey d = q)) =
      l.filter (fun d => decide (ratKey d = q)) := by
  induction l with
  | nil => rfl
  | cons c cs ih =>
    rw [sortByOrder, filter_insertByOrder]
    by_cases hc : ratKey c = q <;> simp [List.filter_cons, hc, ih]

theorem reindexFrom_length (l : List CChunk) : ∀ i, (reindexFrom i l).length = l.length := by
  induction l with
  | nil => intro i; rfl
  | cons c cs ih => intro i; simp [reindexFrom, ih]

theorem reindexFrom_orders (l : List CChunk) :
    ∀ i, (reindexFrom i l).map ScriptChunk.order = List.range' i l.length := by
  induction l with
  | nil => intro i; rfl
  | cons c cs ih =>
    intro i
    show _ = List.range' i (cs.length + 1)
    rw [List.range'_succ]
    simp [reindexFrom, ih]

theorem reindexFrom_texts (l : List CChunk) :
    ∀ i, (reindexFrom i l).map ScriptChunk.text = l.map CChunk.text := by
  induction l with
  | nil => intro i; rfl
  | cons c cs ih => intro i; simp [reindexFrom, ih]

theorem reindexChunks_orders (l : List CChunk) :
    (reindexChunks l).map ScriptChunk.order = List.range (reindexChunks l).length := by
  rw [reindexChunks, reindexFrom_orders, reindexFrom_length, List.range_eq_range']

/-- C1: for every successful `GenerateScript` invocation, the returned
`chunks` array is non-empty and its `order` fields are exactly
`0, 1, ..., n-1` with no gaps (the chunk at index `i` having order `i`),
regardless of the order values supplied in the LLM's raw response. -/
theorem buildScript_chunks_contiguous (lessonId title : String) (parsed : JValue)
    (resp : ScriptResponse) (h : buildScriptCore lessonId title parsed = .ok resp) :
    resp.chunks ≠ [] ∧
      resp.chunks.map ScriptChunk.order = List.range resp.chunks.length := by
  unfold buildScriptCore at h
  split at h
  · exact absurd h (by simp)
  · exact absurd h (by simp)
  · split at h
    · split at h
      · exact absurd h (by simp)
      · split at h
        · exact absurd h (by simp)
        · have hr := Except.ok.inj h
          subst hr
          refine ⟨?_, reindexChunks_orders _⟩
          intro hnil
          simp_all
    · exact absurd h (by simp)

/-- Witness for C1 at a concrete scrambled LLM response. -/
theorem buildScript_chunks_contiguous_witness :
    ∃ resp : ScriptResponse,
      buildScriptCore "L1" "Title" parsedFixture = .ok resp ∧
      resp.chunks ≠ [] ∧
      resp.chunks.map ScriptChunk.order = List.range resp.chunks.length := by
  refine ⟨{ lessonId := "L1", title := "Title",
            fullText := "first tie second",
            chunks := [⟨0, "first"⟩, ⟨1, "tie"⟩, ⟨2, "second"⟩] }, ?_, ?_⟩
  · rfl
  · exact buildScript_chunks_contiguous "L1" "Title" parsedFixture _ rfl

theorem coerceChunk_ok (v : JValue) (h : v.isNull = false) :
    coerceChunk v = .ok (claimCoerce v) := by
  cases v with
  | null => simp [JValue.isNull] at h
  | bool b => rfl
  | num q => rfl
  | str s => rfl
  | arr l => rfl
  | obj kvs => rfl

theorem mapChunks_ok (cs : List JValue) (h : ∀ v ∈ cs, v.isNull = false) :
    mapChunks cs = .ok (cs.map claimCoerce) := by
  induction cs with
  | nil => rfl
  | cons v vs ih =>
    rw [mapChunks, coerceChunk_ok v (h v (by simp)),
      ih (fun w hw => h w (by simp [hw]))]
    simp

theorem string_length_eq_zero {s : String} (h : s.length = 0) : s = "" := by
  cases s with
  | mk data =>
    have hd : data.length = 0 := h
    rw [List.length_eq_zero] at hd
    rw [hd]

theorem keepChunk_iff (c : CChunk) :
    keepChunk c = true ↔ c.order.isFinite = true ∧ c.text ≠ "" := by
  rw [keepChunk, Bool.and_eq_true, bne_iff_ne]
  refine and_congr_right (fun _ => ⟨fun h2 he => ?_, fun h2 hl => h2 (string_length_eq_zero hl)⟩)
  rw [he] at h2
  exact h2 rfl

theorem sanitizeChunks_texts_ne (coerced : List CChunk) :
    ∀ t ∈ (sanitizeChunks coerced).map (fun c => c.text), t ≠ "" := by
  intro t ht
  rw [show (sanitizeChunks coerced).map (fun c => c.text) =
      (sanitizeChunks coerced).map ScriptChunk.text from rfl,
    sanitizeChunks, reindexChunks, reindexFrom_texts] at ht
  rcases List.mem_map.mp ht with ⟨c, hc, rfl⟩
  have hmem := (mem_sortByOrder c _).mp hc
  have hk := (List.mem_filter.mp hmem).2
  exact ((keepChunk_iff c).mp hk).2

/-- C2 counterexample: a `null` entry in the parsed `chunks` array is not
coerced and dropped as the claim states (the spec-worded pipeline would keep
the surviving chunk); instead property access on `null` throws, and
`buildScript` fails with the catch-all `internal` error. -/
theorem sanitize_null_entry_counterexample :
    claimSanitize [JValue.null,
        JValue.obj [("order", JValue.num 0), ("text", JValue.str "Hi")]] =
      [⟨0, "Hi"⟩] ∧
    buildScriptCore "L1" "Title" parsedNullChunk = .error internalCatchAll :=
  ⟨rfl, rfl⟩

/-- C2 (amended): for every parsed payload whose `chunks` field is an array
with no `null` entries, the sanitizer maps each entry to a pair — `order`
kept when already a number and otherwise coerced with `Number(...)`, which
rounds string numerals to binary64 so that overlong literals overflow to
Infinity and literals beyond 2^53 collapse onto representable doubles —
`text` trimmed when a string and empty otherwise — drops every entry whose
coerced order is not finite or whose trimmed text is empty, and sorts the
survivors ascending by coerced order, stably: filtering the sorted list by
any order value returns the tied entries in their original relative
sequence. Arrays with a `null` entry instead make the whole call fail
`internal`. -/
theorem sanitizer_spec (cs : List JValue) (hnull : ∀ v ∈ cs, v.isNull = false) :
    mapChunks cs = .ok (cs.map claimCoerce) ∧
    (sortByOrder ((cs.map claimCoerce).filter keepChunk)).Pairwise
      (fun a b => ratKey a ≤ ratKey b) ∧
    (∀ q : ℚ, (sortByOrder ((cs.map claimCoerce).filter keepChunk)).filter
        (fun d => decide (ratKey d = q)) =
      ((cs.map claimCoerce).filter keepChunk).filter
        (fun d => decide (ratKey d = q))) ∧
    (∀ c, c ∈ (cs.map claimCoerce).filter keepChunk ↔
      c ∈ cs.map claimCoerce ∧ c.order.isFinite = true ∧ c.text ≠ "") := by
  refine ⟨mapChunks_ok cs hnull, pairwise_sortByOrder _,
    fun q => filter_sortByOrder _ q, fun c => ?_⟩
  rw [List.mem_filter, keepChunk_iff]

/-- Witness for C2's amended theorem at a concrete scrambled chunk list,
together with the binary64 behavior of the order coercion: `Number("1e400")`
overflows to Infinity (so such a chunk is dropped as non-finite) and
`Number("9007199254740993")` rounds to the double 9007199254740992 (so it
ties with a numeric order 9007199254740992). -/
theorem sanitizer_spec_witness :
    mapChunks chunksFixture = .ok (chunksFixture.map claimCoerce) ∧
    (sortByOrder ((chunksFixture.map claimCoerce).filter keepChunk)).filter
        (fun d => decide (ratKey d = 1)) =
      ((chunksFixture.map claimCoerce).filter keepChunk).filter
        (fun d => decide (ratKey d = 1)) ∧
    strToNumber "1e400" = JSNum.inf ∧
    strToNumber "9007199254740993" = JSNum.num 9007199254740992 ∧
    claimSanitize [JValue.obj [("order", JValue.str "1e400"),
      ("text", JValue.str "overflowed")]] = [] := by
  have hx : ∀ v ∈ chunksFixture, v.isNull = false := by decide
  exact ⟨(sanitizer_spec chunksFixture hx).1, (sanitizer_spec chunksFixture hx).2.2.1 1,
    by decide, by decide, by decide⟩

/-- C3: for every sanitized LLM response, the returned `fullText` is the
parsed `fullText` trimmed when that trimmed value is non-empty, and otherwise
the surviving chunk texts joined by single spaces in their final order; and
the `fullText` of a successful response is never empty. -/
theorem buildScript_fullText_spec (lessonId title : String) (parsed : JValue)
    (resp : ScriptResponse) (h : buildScriptCore lessonId title parsed = .ok resp) :
    (∃ ft, propAccess parsed "fullText" = .ok (some (.str ft)) ∧
      resp.fullText = (if 0 < (jsTrim ft).length then jsTrim ft
        else joinWith " " (resp.chunks.map (fun c => c.text)))) ∧
    resp.fullText ≠ "" := by
  unfold buildScriptCore at h
  split at h
  · exact absurd h (by simp)
  · exact absurd h (by simp)
  · split at h
    · split at h
      · exact absurd h (by simp)
      · split at h
        · exact absurd h (by simp)
        · rename_i hfull hchunks ex coerced hmap hlen
          have hr := Except.ok.inj h
          subst hr
          constructor
          · exact ⟨_, hfull, rfl⟩
          · show (if 0 < (jsTrim _).length then jsTrim _
              else joinWith " " ((sanitizeChunks coerced).map (fun c => c.text))) ≠ ""
            split
            · rename_i hpos
              intro he
              rw [he] at hpos
              have h0 : ("" : String).length = 0 := rfl
              rw [h0] at hpos
              exact lt_irrefl 0 hpos
            · apply joinWith_space_ne_empty
              · simp only [ne_eq, List.map_eq_nil_iff]
                intro hnil
                rw [hnil] at hlen
                simp at hlen
              · exact sanitizeChunks_texts_ne _
    · exact absurd h (by simp)

/-- Witness for C3 at a response whose parsed `fullText` is blank, forcing the
join fallback. -/
theorem buildScript_fullText_spec_witness :
    ∃ resp : ScriptResponse,
      buildScriptCore "L1" "Title" parsedFixture = .ok resp ∧
      resp.fullText = "first tie second" ∧ resp.fullText ≠ "" := by
  refine ⟨{ lessonId := "L1", title := "Title",
            fullText := "first tie second",
            chunks := [⟨0, "first"⟩, ⟨1, "tie"⟩, ⟨2, "second"⟩] }, rfl, rfl, ?_⟩
  exact (buildScript_fullText_spec "L1" "Title" parsedFixture _ rfl).2

/-- C5 counterexample: a required field named `toString` with no entry in the
personalization map is found on `Object.prototype` as a truthy inherited
function, so the program does not throw, where the claim asserts an
`invalid-argument` error listing `toString` for every missing entry. -/
theorem coverage_prototype_counterexample :
    plookup ([] : List (String × String)) "toString" = none ∧
    ensurePersonalizationCoverage ["toString"] [] = .ok () :=
  ⟨rfl, rfl⟩

/-- C5 (amended): `ensurePersonalizationCoverage` throws `invalid-argument`
if and only if some required field is JavaScript-falsy in the personalization
map: its own entry is the empty string, or it has no own entry and is not an
`Object.prototype` member name (those resolve through the prototype chain to
truthy inherited values and are never reported missing). The error message
lists exactly the falsy fields, comma-separated, in the order declared by the
lesson; on full coverage it returns without effect. -/
theorem ensurePersonalizationCoverage_spec (requiredFields : List String)
    (p : List (String × String)) :
    (ensurePersonalizationCoverage requiredFields p = .ok () ↔
      ∀ f ∈ requiredFields, pFalsy p f = false) ∧
    ((∃ f ∈ requiredFields, pFalsy p f = true) →
      ensurePersonalizationCoverage requiredFields p =
        .error ⟨.invalidArgument,
          "Missing personalization values for: " ++
            joinWith ", " (requiredFields.filter (fun f => pFalsy p f)) ++ "."⟩) ∧
    (∀ f, pFalsy p f = true ↔
      (plookup p f = some "" ∨
        (plookup p f = none ∧ f ∉ objectProtoKeys))) := by
  refine ⟨?_, ?_, ?_⟩
  · by_cases hlen : (requiredFields.filter (fun f => pFalsy p f)).length = 0
    · rw [ensurePersonalizationCoverage, if_pos hlen]
      rw [List.length_eq_zero, List.filter_eq_nil_iff] at hlen
      simp only [true_iff]
      intro f hf
      have := hlen f hf
      simp_all
    · rw [ensurePersonalizationCoverage, if_neg hlen]
      rw [List.length_eq_zero, List.filter_eq_nil_iff] at hlen
      push_neg at hlen
      rcases hlen with ⟨f, hf, hpf⟩
      refine iff_of_false (by simp) ?_
      intro hall
      rw [hall f hf] at hpf
      simp at hpf
  · rintro ⟨f, hf, hpf⟩
    have hlen : ¬ (requiredFields.filter (fun f => pFalsy p f)).length = 0 := by
      rw [List.length_eq_zero, List.filter_eq_nil_iff]
      push_neg
      exact ⟨f, hf, by simp [hpf]⟩
    rw [ensurePersonalizationCoverage, if_neg hlen]
  · intro f
    cases hp : plookup p f with
    | none => simp [pFalsy, hp]
    | some v => simp [pFalsy, hp]

/-- Witness for C5: one covered field, one missing field. -/
theorem ensurePersonalizationCoverage_witness :
    ensurePersonalizationCoverage ["user_name", "user_city"] [("user_name", "Alex")] =
      .error ⟨.invalidArgument, "Missing personalization values for: user_city."⟩ := by
  have h := (ensurePersonalizationCoverage_spec ["user_name", "user_city"]
    [("user_name", "Alex")]).2.1 ⟨"user_city", by decide, by decide⟩
  exact h

theorem requireAuth_err_code (a : Option String) (e : HttpsErr)
    (h : requireAuth a = .error e) : e.code = ErrCode.unauthenticated := by
  unfold requireAuth at h
  split at h
  · split at h
    · cases Except.error.inj h; rfl
    · exact absurd h (by simp)
  · cases Except.error.inj h; rfl

theorem expectString_err_code (v : Option JValue) (f : String) (e : HttpsErr)
    (h : expectString v f = .error e) :
    e = ⟨.invalidArgument, f ++ " must be a non-empty string."⟩ := by
  unfold expectString at h
  split at h
  · split at h
    · exact (Except.error.inj h).symm
    · exact absurd h (by simp)
  · exact (Except.error.inj h).symm

theorem buildPersonalization_err_code (pkvs : List (String × JValue)) (e : HttpsErr)
    (h : buildPersonalization pkvs = .error e) : e.code = ErrCode.invalidArgument := by
  induction pkvs with
  | nil => exact absurd h (by simp [buildPersonalization])
  | cons kv rest ih =>
    rcases kv with ⟨k, v⟩
    unfold buildPersonalization at h
    split at h
    · split at h
      · exact absurd h (by simp)
      · rename_i e0 he0
        cases Except.error.inj h
        exact ih he0
    · cases Except.error.inj h; rfl

theorem parse_err_code (d : JValue) (e : HttpsErr)
    (h : parseGenerateScriptPayload d = .error e) : e.code = ErrCode.invalidArgument := by
  unfold parseGenerateScriptPayload at h
  split at h
  · split at h
    · rename_i he
      cases Except.error.inj h
      rw [expectString_err_code _ _ _ he]
    · split at h
      · rename_i he
        cases Except.error.inj h
        rw [expectString_err_code _ _ _ he]
      · split at h
        · rename_i he
          cases Except.error.inj h
          rw [expectString_err_code _ _ _ he]
        · split at h
          · split at h
            · rename_i he
              cases Except.error.inj h
              exact buildPersonalization_err_code _ _ he
            · exact absurd h (by simp)
          · cases Except.error.inj h; rfl
  · cases Except.error.inj h; rfl

theorem coverage_err_code (rf : List String) (p : List (String × String)) (e : HttpsErr)
    (h : ensurePersonalizationCoverage rf p = .error e) :
    e.code = ErrCode.invalidArgument := by
  unfold ensurePersonalizationCoverage at h
  split at h
  · exact absurd h (by simp)
  · cases Except.error.inj h; rfl

/-- C4: `generateScript` checks failure conditions in a fixed order with fixed
kinds: missing auth fails `unauthenticated` for every payload; a payload
violation fails `invalid-argument` for every lesson store; an absent lesson
fails `not-found` for every personalization map; and the absent-prompt
`failed-precondition` error occurs only once coverage has succeeded, coverage
failure taking precedence. -/
theorem generateScript_error_order (env : Env) (req : RequestModel) :
    (∀ e, requireAuth req.authUid = .error e →
      generateScriptValidate env req = .error e ∧ e.code = ErrCode.unauthenticated) ∧
    (∀ uid e, requireAuth req.authUid = .ok uid →
      parseGenerateScriptPayload req.data = .error e →
      generateScriptValidate env req = .error e ∧ e.code = ErrCode.invalidArgument) ∧
    (∀ uid cmd, requireAuth req.authUid = .ok uid →
      parseGenerateScriptPayload req.data = .ok cmd →
      env.lessons cmd.lessonId = none →
      generateScriptValidate env req =
        .error ⟨.notFound, "Lesson " ++ cmd.lessonId ++ " does not exist."⟩) ∧
    (∀ uid cmd lesson, requireAuth req.authUid = .ok uid →
      parseGenerateScriptPayload req.data = .ok cmd →
      env.lessons cmd.lessonId = some lesson →
      env.prompts lesson.promptTemplateId = none →
      (ensurePersonalizationCoverage
          (lessonRequiredFields lesson.requiredPersonalizationFields)
          cmd.personalization = .ok () →
        generateScriptValidate env req =
          .error ⟨.failedPrecondition,
            "Prompt template " ++ lesson.promptTemplateId ++
              " referenced by lesson " ++ cmd.lessonId ++ " is missing."⟩) ∧
      (∀ e, ensurePersonalizationCoverage
          (lessonRequiredFields lesson.requiredPersonalizationFields)
          cmd.personalization = .error e →
        generateScriptValidate env req = .error e ∧
          e.code = ErrCode.invalidArgument)) := by
  refine ⟨?_, ?_, ?_, ?_⟩
  · intro e he
    refine ⟨?_, requireAuth_err_code _ _ he⟩
    unfold generateScriptValidate
    rw [he]
  · intro uid e ha hp
    refine ⟨?_, parse_err_code _ _ hp⟩
    unfold generateScriptValidate
    rw [ha, hp]
  · intro uid cmd ha hp hl
    simp only [generateScriptValidate, ha, hp, hl]
  · intro uid cmd lesson ha hp hl hpm
    constructor
    · intro hcov
      simp only [generateScriptValidate, ha, hp, hl, hcov, hpm]
    · intro e hcov
      refine ⟨?_, coverage_err_code _ _ _ hcov⟩
      simp only [generateScriptValidate, ha, hp, hl, hcov]

/-- Witness for C4, exercising each of the four stages on concrete requests
against a store whose one lesson references a missing prompt template. -/
theorem generateScript_error_order_witness :
    generateScriptValidate envFixture { authUid := none, data := goodPayload } =
      .error ⟨.unauthenticated, "Anonymous Firebase Authentication is required."⟩ ∧
    generateScriptValidate envFixture { authUid := some "u1", data := JValue.null } =
      .error ⟨.invalidArgument, "Request payload must be an object."⟩ ∧
    generateScriptValidate envFixture
        { authUid := some "u1",
          data := JValue.obj [("lessonId", JValue.str "L2"),
            ("languageCode", JValue.str "en"), ("targetLevel", JValue.str "B1"),
            ("personalization", JValue.obj [])] } =
      .error ⟨.notFound, "Lesson L2 does not exist."⟩ ∧
    generateScriptValidate envFixture { authUid := some "u1", data := goodPayload } =
      .error ⟨.failedPrecondition,
        "Prompt template pt-1 referenced by lesson L1 is missing."⟩ := by
  refine ⟨?_, ?_, ?_, ?_⟩
  · exact ((generateScript_error_order envFixture
      { authUid := none, data := goodPayload }).1 _ rfl).1
  · exact ((generateScript_error_order envFixture
      { authUid := some "u1", data := JValue.null }).2.1 "u1" _ rfl rfl).1
  · exact (generateScript_error_order envFixture
      { authUid := some "u1",
        data := JValue.obj [("lessonId", JValue.str "L2"),
          ("languageCode", JValue.str "en"), ("targetLevel", JValue.str "B1"),
          ("personalization", JValue.obj [])] }).2.2.1 "u1"
      { lessonId := "L2", languageCode := "en", targetLevel := "B1",
        personalization := [] } rfl rfl rfl
  · exact ((generateScript_error_order envFixture
      { authUid := some "u1", data := goodPayload }).2.2.2 "u1" goodCommand
      lessonFixture rfl rfl rfl rfl).1 (by rfl)

/-- C10: when the fetched lesson's `requiredPersonalizationFields` is not an
array, `generateScript` substitutes the empty list, the coverage check passes
vacuously for every personalization map, and no `invalid-argument` error can
be raised past that point: any subsequent failure is the
`failed-precondition` of a missing prompt template. -/
theorem nonarray_requiredFields_spec (env : Env) (req : RequestModel)
    (uid : String) (cmd : GenerateScriptCommand) (lesson : LessonDoc)
    (hauth : requireAuth req.authUid = .ok uid)
    (hparse : parseGenerateScriptPayload req.data = .ok cmd)
    (hlesson : env.lessons cmd.lessonId = some lesson)
    (harr : lesson.requiredPersonalizationFields.isArr = false) :
    lessonRequiredFields lesson.requiredPersonalizationFields = [] ∧
    ensurePersonalizationCoverage
      (lessonRequiredFields lesson.requiredPersonalizationFields)
      cmd.personalization = .ok () ∧
    ∀ e, generateScriptValidate env req = .error e →
      e.code = ErrCode.failedPrecondition := by
  have hf : lessonRequiredFields lesson.requiredPersonalizationFields = [] := by
    cases hval : lesson.requiredPersonalizationFields with
    | arr l => rw [hval] at harr; simp [JValue.isArr] at harr
    | null => rfl
    | bool b => rfl
    | num q => rfl
    | str s => rfl
    | obj kvs => rfl
  have hcov : ensurePersonalizationCoverage
      (lessonRequiredFields lesson.requiredPersonalizationFields)
      cmd.personalization = .ok () := by
    rw [hf]
    rfl
  refine ⟨hf, hcov, ?_⟩
  intro e he
  simp only [generateScriptValidate, hauth, hparse, hlesson, hcov] at he
  split at he
  · cases Except.error.inj he; rfl
  · exact absurd he (by simp)

/-- Witness for C10: a lesson whose required-fields value is the string
`"oops"`, checked against a command that supplies no personalization. -/
theorem nonarray_requiredFields_witness :
    lessonRequiredFields lessonBadFields.requiredPersonalizationFields = [] ∧
    ensurePersonalizationCoverage
      (lessonRequiredFields lessonBadFields.requiredPersonalizationFields)
      goodCommand.personalization = .ok () ∧
    (HttpsErr.mk .failedPrecondition
      "Prompt template pt-1 referenced by lesson L1 is missing.").code =
        ErrCode.failedPrecondition := by
  have h := nonarray_requiredFields_spec envBadFields
    { authUid := some "u1", data := goodPayload } "u1" goodCommand lessonBadFields
    rfl rfl rfl rfl
  exact ⟨h.1, h.2.1, h.2.2 _ rfl⟩

/-- C8 counterexample: a negative `maxLength` is a truthy number, so the code
emits the per-chunk-ceiling instruction mentioning `-5`, where the claim
demands the generic instruction for every non-positive `maxLength`. -/
theorem chunkingInstructions_negative_counterexample :
    chunkingInstructions (some { type := none, maxLength := some (JSNum.num (-5)) }) =
      "Split the script into sequential chunks where each chunk is at most -5 characters." ∧
    chunkingInstructions (some { type := none, maxLength := some (JSNum.num (-5)) }) ≠
      genericChunkInstruction := by
  constructor
  · rfl
  · intro h
    have := congrArg String.length h
    simp only [genericChunkInstruction] at this
    exact absurd this (by decide)

/-- C8 (amended): the chunking instruction imposes the per-chunk character
ceiling exactly when `chunkingStrategy.maxLength` is present and truthy — a
nonzero, non-NaN number, including negative and infinite values; in every
other case (absent strategy, absent `maxLength`, zero, or NaN) it is the
generic sequential-conversational instruction. -/
theorem chunkingInstructions_truthy_spec (strategy : Option ChunkingStrategy) :
    (∀ m, strategy.bind ChunkingStrategy.maxLength = some m → m.truthy = true →
      chunkingInstructions strategy =
        "Split the script into sequential chunks where each chunk is at most " ++
          jsNumToString m ++ " characters.") ∧
    ((∀ m, strategy.bind ChunkingStrategy.maxLength = some m → m.truthy = false) →
      chunkingInstructions strategy = genericChunkInstruction) := by
  constructor
  · intro m hm ht
    simp [chunkingInstructions, hm, ht]
  · intro hall
    cases hm : strategy.bind ChunkingStrategy.maxLength with
    | none => simp [chunkingInstructions, hm]
    | some m => simp [chunkingInstructions, hm, hall m hm]

/-- Witness for C8's amended theorem: a positive ceiling and an absent
strategy. -/
theorem chunkingInstructions_truthy_witness :
    chunkingInstructions (some { type := some "sentence", maxLength := some (JSNum.num 220) }) =
      "Split the script into sequential chunks where each chunk is at most 220 characters." ∧
    chunkingInstructions none = genericChunkInstruction := by
  constructor
  · exact (chunkingInstructions_truthy_spec
      (some { type := some "sentence", maxLength := some (JSNum.num 220) })).1
      (JSNum.num 220) rfl (by decide)
  · exact (chunkingInstructions_truthy_spec none).2 (fun m hm => by cases hm)

theorem expectString_err (v : Option JValue) (f : String)
    (h : ∀ s, v = some (JValue.str s) → jsTrim s = "") :
    expectString v f = .error ⟨.invalidArgument, f ++ " must be a non-empty string."⟩ := by
  unfold expectString
  split
  · rename_i s
    rw [if_pos]
    rw [h s rfl]
    rfl
  · rfl

theorem expectString_ok (v : Option JValue) (f s : String)
    (hv : v = some (JValue.str s)) (hs : jsTrim s ≠ "") :
    expectString v f = .ok (jsTrim s) := by
  subst hv
  show (if (jsTrim s).length = 0 then
      Except.error (HttpsErr.mk ErrCode.invalidArgument (f ++ " must be a non-empty string."))
    else Except.ok (jsTrim s)) = Except.ok (jsTrim s)
  rw [if_neg]
  intro hlen
  exact hs (string_length_eq_zero hlen)

theorem expectString_ok_trimmed (v : Option JValue) (f x : String)
    (h : expectString v f = .ok x) : jsTrim x = x := by
  unfold expectString at h
  split at h
  · split at h
    · exact absurd h (by simp)
    · rw [← Except.ok.inj h]
      exact jsTrim_idem _
  · exact absurd h (by simp)

theorem buildPersonalization_trimmed (pkvs : List (String × JValue))
    (p : List (String × String)) (h : buildPersonalization pkvs = .ok p) :
    ∀ kv ∈ p, jsTrim kv.2 = kv.2 := by
  induction pkvs generalizing p with
  | nil =>
    cases Except.ok.inj h
    intro kv hkv
    simp at hkv
  | cons kv0 rest ih =>
    rcases kv0 with ⟨k, v⟩
    cases v with
    | str s =>
      cases hrest : buildPersonalization rest with
      | ok tail =>
        simp only [buildPersonalization, hrest] at h
        cases Except.ok.inj h
        intro kv hkv
        by_cases hk : k = "__proto__"
        · exact ih tail hrest kv (by rwa [if_pos hk] at hkv)
        · rw [if_neg hk] at hkv
          rcases List.mem_cons.mp hkv with hkv | hkv
          · rw [hkv]
            exact jsTrim_idem s
          · exact ih tail hrest kv hkv
      | error e =>
        simp only [buildPersonalization, hrest] at h
        exact absurd h (by simp)
    | null => simp [buildPersonalization] at h
    | bool b => simp [buildPersonalization] at h
    | num q => simp [buildPersonalization] at h
    | arr l2 => simp [buildPersonalization] at h
    | obj kvs2 => simp [buildPersonalization] at h

theorem buildPersonalization_err_first (pre : List (String × JValue))
    (k : String) (v : JValue) (rest : List (String × JValue))
    (hpre : ∀ kv ∈ pre, ∃ s, kv.2 = JValue.str s)
    (hv : ∀ s, v ≠ JValue.str s) :
    buildPersonalization (pre ++ (k, v) :: rest) =
      .error ⟨.invalidArgument,
        "personalization value for " ++ k ++ " must be a string."⟩ := by
  induction pre with
  | nil =>
    rw [List.nil_append]
    unfold buildPersonalization
    split
    · rename_i s
      exact absurd rfl (hv s)
    · rfl
  | cons kv0 pre' ih =>
    rcases kv0 with ⟨k0, v0⟩
    rcases hpre (k0, v0) (by simp) with ⟨s0, hs0⟩
    simp only at hs0
    subst hs0
    rw [List.cons_append]
    unfold buildPersonalization
    rw [ih (fun kv hkv => hpre kv (by simp [hkv]))]

/-- C7: `parseGenerateScriptPayload` fails `invalid-argument` on a non-object
root; on a missing, non-string, or whitespace-only `lessonId`,
`languageCode`, or `targetLevel` (naming the field); and on a `personalization`
that is absent or not a non-array object or has a non-string value (naming the
key). On success every returned string is trimmed, and
personalization values that are empty after trimming are retained. -/
theorem parseGenerateScriptPayload_spec :
    (∀ d : JValue, d.isObj = false →
      parseGenerateScriptPayload d =
        .error ⟨.invalidArgument, "Request payload must be an object."⟩) ∧
    (∀ v f, (∀ s, v = some (JValue.str s) → jsTrim s = "") →
      expectString v f =
        .error ⟨.invalidArgument, f ++ " must be a non-empty string."⟩) ∧
    (∀ kvs e, expectString (alookup kvs "lessonId") "lessonId" = .error e →
      parseGenerateScriptPayload (.obj kvs) = .error e) ∧
    (∀ kvs l e, expectString (alookup kvs "lessonId") "lessonId" = .ok l →
      expectString (alookup kvs "languageCode") "languageCode" = .error e →
      parseGenerateScriptPayload (.obj kvs) = .error e) ∧
    (∀ kvs l lc e, expectString (alookup kvs "lessonId") "lessonId" = .ok l →
      expectString (alookup kvs "languageCode") "languageCode" = .ok lc →
      expectString (alookup kvs "targetLevel") "targetLevel" = .error e →
      parseGenerateScriptPayload (.obj kvs) = .error e) ∧
    (∀ kvs l lc tl, expectString (alookup kvs "lessonId") "lessonId" = .ok l →
      expectString (alookup kvs "languageCode") "languageCode" = .ok lc →
      expectString (alookup kvs "targetLevel") "targetLevel" = .ok tl →
      (∀ pkvs, alookup kvs "personalization" ≠ some (.obj pkvs)) →
      parseGenerateScriptPayload (.obj kvs) =
        .error ⟨.invalidArgument, "personalization must be an object of string values."⟩) ∧
    (∀ kvs l lc tl pkvs pre k v rest,
      expectString (alookup kvs "lessonId") "lessonId" = .ok l →
      expectString (alookup kvs "languageCode") "languageCode" = .ok lc →
      expectString (alookup kvs "targetLevel") "targetLevel" = .ok tl →
      alookup kvs "personalization" = some (.obj pkvs) →
      pkvs = pre ++ (k, v) :: rest →
      (∀ kv ∈ pre, ∃ s, kv.2 = JValue.str s) →
      (∀ s, v ≠ JValue.str s) →
      parseGenerateScriptPayload (.obj kvs) =
        .error ⟨.invalidArgument,
          "personalization value for " ++ k ++ " must be a string."⟩) ∧
    (∀ d r, parseGenerateScriptPayload d = .ok r →
      jsTrim r.lessonId = r.lessonId ∧ jsTrim r.languageCode = r.languageCode ∧
      jsTrim r.targetLevel = r.targetLevel ∧
      ∀ kv ∈ r.personalization, jsTrim kv.2 = kv.2) ∧
    (parseGenerateScriptPayload
        (JValue.obj [("lessonId", JValue.str " L1 "),
          ("languageCode", JValue.str "en"), ("targetLevel", JValue.str "B1"),
          ("personalization", JValue.obj [("note", JValue.str "   ")])]) =
      .ok { lessonId := "L1", languageCode := "en", targetLevel := "B1",
            personalization := [("note", "")] }) := by
  refine ⟨?_, ?_, ?_, ?_, ?_, ?_, ?_, ?_, rfl⟩
  · intro d hd
    cases d with
    | obj kvs => simp [JValue.isObj] at hd
    | null => rfl
    | bool b => rfl
    | num q => rfl
    | str s => rfl
    | arr l => rfl
  · exact expectString_err
  · intro kvs e he
    simp [parseGenerateScriptPayload, he]
  · intro kvs l e hl he
    simp [parseGenerateScriptPayload, hl, he]
  · intro kvs l lc e hl hlc he
    simp [parseGenerateScriptPayload, hl, hlc, he]
  · intro kvs l lc tl hl hlc htl hp
    cases hv : alookup kvs "personalization" with
    | none => simp [parseGenerateScriptPayload, hl, hlc, htl, hv]
    | some v =>
      cases v with
      | obj pkvs => exact absurd hv (hp pkvs)
      | null => simp [parseGenerateScriptPayload, hl, hlc, htl, hv]
      | bool b => simp [parseGenerateScriptPayload, hl, hlc, htl, hv]
      | num q => simp [parseGenerateScriptPayload, hl, hlc, htl, hv]
      | str s => simp [parseGenerateScriptPayload, hl, hlc, htl, hv]
      | arr l2 => simp [parseGenerateScriptPayload, hl, hlc, htl, hv]
  · intro kvs l lc tl pkvs pre k v rest hl hlc htl hp hsplit hpre hv
    subst hsplit
    simp only [parseGenerateScriptPayload, hl, hlc, htl, hp,
      buildPersonalization_err_first pre k v rest hpre hv]
  · intro d r h
    cases d with
    | null => simp [parseGenerateScriptPayload] at h
    | bool b => simp [parseGenerateScriptPayload] at h
    | num q => simp [parseGenerateScriptPayload] at h
    | str s => simp [parseGenerateScriptPayload] at h
    | arr l2 => simp [parseGenerateScriptPayload] at h
    | obj kvs =>
      cases hlid : expectString (alookup kvs "lessonId") "lessonId" with
      | error e => simp only [parseGenerateScriptPayload, hlid] at h; exact absurd h (by simp)
      | ok lid =>
        cases hlc : expectString (alookup kvs "languageCode") "languageCode" with
        | error e =>
          simp only [parseGenerateScriptPayload, hlid, hlc] at h
          exact absurd h (by simp)
        | ok lc =>
          cases htl : expectString (alookup kvs "targetLevel") "targetLevel" with
          | error e =>
            simp only [parseGenerateScriptPayload, hlid, hlc, htl] at h
            exact absurd h (by simp)
          | ok tl =>
            cases hp : alookup kvs "personalization" with
            | none =>
              simp only [parseGenerateScriptPayload, hlid, hlc, htl, hp] at h
              exact absurd h (by simp)
            | some pv =>
              cases pv with
              | null =>
                simp only [parseGenerateScriptPayload, hlid, hlc, htl, hp] at h
                exact absurd h (by simp)
              | bool b =>
                simp only [parseGenerateScriptPayload, hlid, hlc, htl, hp] at h
                exact absurd h (by simp)
              | num q =>
                simp only [parseGenerateScriptPayload, hlid, hlc, htl, hp] at h
                exact absurd h (by simp)
              | str s =>
                simp only [parseGenerateScriptPayload, hlid, hlc, htl, hp] at h
                exact absurd h (by simp)
              | arr l2 =>
                simp only [parseGenerateScriptPayload, hlid, hlc, htl, hp] at h
                exact absurd h (by simp)
              | obj pkvs =>
                cases hbp : buildPersonalization pkvs with
                | error e =>
                  simp only [parseGenerateScriptPayload, hlid, hlc, htl, hp, hbp] at h
                  exact absurd h (by simp)
                | ok p =>
                  simp only [parseGenerateScriptPayload, hlid, hlc, htl, hp, hbp] at h
                  cases Except.ok.inj h
                  exact ⟨expectString_ok_trimmed _ _ _ hlid, jsTrim_idem _,
                    jsTrim_idem _, buildPersonalization_trimmed _ _ hbp⟩

/-- Witness for C7 touching the root check, a field error, and the
personalization-value error at concrete payloads. -/
theorem parseGenerateScriptPayload_witness :
    parseGenerateScriptPayload (JValue.arr []) =
      .error ⟨.invalidArgument, "Request payload must be an object."⟩ ∧
    parseGenerateScriptPayload (JValue.obj [("lessonId", JValue.str "  ")]) =
      .error ⟨.invalidArgument, "lessonId must be a non-empty string."⟩ ∧
    parseGenerateScriptPayload
        (JValue.obj [("lessonId", JValue.str "L1"),
          ("languageCode", JValue.str "en"), ("targetLevel", JValue.str "B1"),
          ("personalization",
            JValue.obj [("ok_key", JValue.str "fine"), ("bad_key", JValue.num 3)])]) =
      .error ⟨.invalidArgument, "personalization value for bad_key must be a string."⟩ := by
  refine ⟨?_, ?_, ?_⟩
  · exact parseGenerateScriptPayload_spec.1 (JValue.arr []) rfl
  · exact parseGenerateScriptPayload_spec.2.2.1 _ _
      (parseGenerateScriptPayload_spec.2.1 _ "lessonId" (by intro s hs; cases hs; rfl))
  · exact parseGenerateScriptPayload_spec.2.2.2.2.2.2.1 _ "L1" "en" "B1"
      [("ok_key", JValue.str "fine"), ("bad_key", JValue.num 3)]
      [("ok_key", JValue.str "fine")] "bad_key" (JValue.num 3) []
      rfl rfl rfl rfl rfl
      (by intro kv hkv; simp at hkv; exact ⟨"fine", by rw [hkv]⟩)
      (by intro s hs; cases hs)

theorem strMk_of_data (s : String) : String.mk s.data = s := by
  cases s
  rfl

theorem takeWhile_all_append (p : Char → Bool) (xs ys : List Char)
    (h1 : ∀ a ∈ xs, p a = true)
    (h2 : ∀ b, ys.head? = some b → p b = false) :
    (xs ++ ys).takeWhile p = xs ∧ (xs ++ ys).dropWhile p = ys := by
  induction xs with
  | nil =>
    simp only [List.nil_append]
    cases ys with
    | nil => exact ⟨rfl, rfl⟩
    | cons b t =>
      have hb := h2 b rfl
      simp [List.takeWhile_cons, List.dropWhile_cons, hb]
  | cons a xs' ih =>
    have ha := h1 a (by simp)
    have hrest := ih (fun a' ha' => h1 a' (by simp [ha']))
    simp [List.takeWhile_cons, List.dropWhile_cons, ha, hrest.1, hrest.2]

theorem tryMatch_not_two_braces (c1 c2 : Char) (rest : List Char)
    (h : (c1 == lbrace && c2 == lbrace) = false) :
    tryMatch (c1 :: c2 :: rest) = none := by
  simp only [tryMatch, h]
  rfl

theorem litOkB_tail (c : Char) (l : List Char) (h : litOkB (c :: l) = true) :
    litOkB l = true := by
  cases l with
  | nil => rfl
  | cons c2 t =>
    rw [litOkB, Bool.and_eq_true] at h
    exact h.2

theorem renderFuel_lit (m : String → Option String) (l : List Char)
    (hok : litOkB l = true) :
    ∀ (fuel : ℕ) (rest : List Char), (l ++ rest).length ≤ fuel →
      renderFuel m fuel (l ++ rest) = l ++ renderFuel m (fuel - l.length) rest := by
  induction l with
  | nil =>
    intro fuel rest hfuel
    simp
  | cons c l' ih =>
    intro fuel rest hfuel
    cases fuel with
    | zero => simp at hfuel
    | succ fuel' =>
      have htm : tryMatch (c :: (l' ++ rest)) = none := by
        cases l' with
        | nil =>
          have hc : (c == lbrace) = false := by
            rw [litOkB] at hok
            simpa using hok
          cases rest with
          | nil => rfl
          | cons c2 t =>
            exact tryMatch_not_two_braces c c2 t (by rw [hc]; rfl)
        | cons c2 t =>
          rw [litOkB, Bool.and_eq_true] at hok
          refine tryMatch_not_two_braces c c2 (t ++ rest) ?_
          have hne : ¬c = lbrace ∨ ¬c2 = lbrace := by simpa using hok.1
          rcases hne with hne | hne
          · rw [beq_false_of_ne hne, Bool.false_and]
          · rw [beq_false_of_ne hne, Bool.and_false]
      rw [List.cons_append, renderFuel, htm]
      have hlen : (l' ++ rest).length ≤ fuel' := by
        simp only [List.cons_append, List.length_cons] at hfuel
        omega
      rw [ih (litOkB_tail c l' hok) fuel' rest hlen]
      simp [Nat.succ_sub_succ]

theorem flatTokL_hole_length (ws1 key ws2 : String) :
    (flatTokL (.hole ws1 key ws2)).length =
      2 + ws1.data.length + key.data.length + ws2.data.length + 2 := by
  simp [flatTokL]
  omega

theorem tryMatch_hole (ws1 key ws2 : String) (rest : List Char)
    (h1 : ws1.data.all isJsSpace = true) (h2 : ws2.data.all isJsSpace = true)
    (h3 : key.data.all isWordDot = true) (h4 : key.data ≠ []) :
    tryMatch (flatTokL (.hole ws1 key ws2) ++ rest) =
      some (key, 2 + ws1.data.length + key.data.length + ws2.data.length + 2) := by
  have hx : flatTokL (.hole ws1 key ws2) ++ rest =
      lbrace :: lbrace ::
        (ws1.data ++ (key.data ++ (ws2.data ++ (rbrace :: rbrace :: rest)))) := by
    simp [flatTokL]
  rw [hx]
  have hspan1 := takeWhile_all_append isJsSpace ws1.data
    (key.data ++ (ws2.data ++ (rbrace :: rbrace :: rest)))
    (fun a ha => by
      rw [List.all_eq_true] at h1
      exact h1 a ha)
    (fun b hb => by
      cases hk : key.data with
      | nil => exact absurd hk h4
      | cons kc kt =>
        rw [hk] at hb
        simp at hb
        subst hb
        rw [List.all_eq_true] at h3
        exact wordDot_not_space (h3 kc (by rw [hk]; simp)))
  have hspan2 := takeWhile_all_append isWordDot key.data
    (ws2.data ++ (rbrace :: rbrace :: rest))
    (fun a ha => by
      rw [List.all_eq_true] at h3
      exact h3 a ha)
    (fun b hb => by
      cases hw : ws2.data with
      | nil =>
        rw [hw] at hb
        simp at hb
        subst hb
        decide
      | cons wc wt =>
        rw [hw] at hb
        simp at hb
        subst hb
        rw [List.all_eq_true] at h2
        exact space_not_wordDot (h2 wc (by rw [hw]; simp)))
  have hspan3 := takeWhile_all_append isJsSpace ws2.data (rbrace :: rbrace :: rest)
    (fun a ha => by
      rw [List.all_eq_true] at h2
      exact h2 a ha)
    (fun b hb => by
      simp at hb
      subst hb
      decide)
  rw [tryMatch]
  simp only [beq_self_eq_true, Bool.and_self, if_true]
  rw [hspan1.1, hspan1.2, hspan2.1, hspan2.2, hspan3.1, hspan3.2]
  rw [if_neg (by
    intro hlen
    exact h4 (List.length_eq_zero.mp hlen))]
  rfl

theorem renderFuel_hole (m : String → Option String) (ws1 key ws2 : String)
    (rest : List Char) (fuel : ℕ) (hok : tokOkB (.hole ws1 key ws2) = true) :
    renderFuel m (fuel + 1) (flatTokL (.hole ws1 key ws2) ++ rest) =
      renderTokL m (.hole ws1 key ws2) ++ renderFuel m fuel rest := by
  rw [tokOkB] at hok
  simp only [Bool.and_eq_true] at hok
  rcases hok with ⟨⟨⟨h1, h2⟩, h3⟩, h4⟩
  have h4' : key.data ≠ [] := by
    intro hk
    rw [hk] at h4
    simp at h4
  have hmatch := tryMatch_hole ws1 key ws2 rest h1 h2 h3 h4'
  have hx : flatTokL (.hole ws1 key ws2) ++ rest =
      lbrace :: (lbrace ::
        (ws1.data ++ key.data ++ ws2.data ++ [rbrace, rbrace]) ++ rest) := by
    simp [flatTokL]
  have hlen : (flatTokL (.hole ws1 key ws2)).length =
      2 + ws1.data.length + key.data.length + ws2.data.length + 2 :=
    flatTokL_hole_length ws1 key ws2
  rw [hx] at hmatch ⊢
  have hdrop : (lbrace :: (lbrace ::
      (ws1.data ++ key.data ++ ws2.data ++ [rbrace, rbrace]) ++ rest)).drop
        (2 + ws1.data.length + key.data.length + ws2.data.length + 2) = rest := by
    rw [← hx, ← hlen]
    exact List.drop_left _ _
  have htake : (lbrace :: (lbrace ::
      (ws1.data ++ key.data ++ ws2.data ++ [rbrace, rbrace]) ++ rest)).take
        (2 + ws1.data.length + key.data.length + ws2.data.length + 2) =
      flatTokL (.hole ws1 key ws2) := by
    rw [← hx, ← hlen]
    exact List.take_left _ _
  simp only [renderFuel, hmatch]
  rw [hdrop, htake]
  cases hm : m key with
  | some v => simp [renderTokL, hm]
  | none => simp [renderTokL, hm]

theorem renderFuel_toks (m : String → Option String) (ts : List Tok)
    (hok : ∀ t ∈ ts, tokOkB t = true) :
    ∀ fuel, (flatToksL ts).length ≤ fuel →
      renderFuel m fuel (flatToksL ts) = renderToksL m ts := by
  induction ts with
  | nil =>
    intro fuel hfuel
    cases fuel <;> rfl
  | cons t ts' ih =>
    intro fuel hfuel
    have hts' : ∀ u ∈ ts', tokOkB u = true :=
      fun u hu => hok u (List.mem_cons_of_mem _ hu)
    have hflat : flatToksL (t :: ts') = flatTokL t ++ flatToksL ts' := by
      simp [flatToksL]
    have hrender : renderToksL m (t :: ts') = renderTokL m t ++ renderToksL m ts' := by
      simp [renderToksL]
    rw [hflat] at hfuel ⊢
    rw [hrender]
    cases t with
    | lit s =>
      have hokl : litOkB s.data = true := hok (.lit s) (by simp)
      rw [show flatTokL (.lit s) = s.data from rfl] at hfuel ⊢
      rw [renderFuel_lit m s.data hokl fuel (flatToksL ts') hfuel]
      rw [show renderTokL m (.lit s) = s.data from rfl]
      congr 1
      apply ih hts'
      simp only [List.length_append] at hfuel
      omega
    | hole ws1 key ws2 =>
      cases fuel with
      | zero =>
        exfalso
        simp only [List.length_append, flatTokL_hole_length] at hfuel
        omega
      | succ fuel' =>
        rw [renderFuel_hole m ws1 key ws2 (flatToksL ts') fuel'
          (hok (.hole ws1 key ws2) (by simp))]
        congr 1
        apply ih hts'
        simp only [List.length_append, flatTokL_hole_length] at hfuel
        omega

/-- C6: `renderTemplate` makes a single non-recursive pass that replaces every
placeholder occurrence (two left braces, optional whitespace, a `[\w.]+` key,
optional whitespace, two right braces) whose key is in the mapping with the
mapped value and leaves every other placeholder verbatim with its braces:
rendering any template assembled from safe literals and placeholders
substitutes exactly the placeholders, and the spec's example renders `Hi Alex,
from \x7b\x7bmissing_key\x7d\x7d`. -/
theorem renderTemplate_spec :
    (∀ (m : String → Option String) (ts : List Tok), (∀ t ∈ ts, tokOkB t = true) →
      renderTemplate (String.mk (flatToksL ts)) m = String.mk (renderToksL m ts)) ∧
    renderTemplate "Hi \x7b\x7buser_name\x7d\x7d, from \x7b\x7bmissing_key\x7d\x7d"
        exampleMap =
      "Hi Alex, from \x7b\x7bmissing_key\x7d\x7d" := by
  constructor
  · intro m ts hok
    unfold renderTemplate
    congr 1
    exact renderFuel_toks m ts hok _ le_rfl
  · rfl

/-- Witness for C6's general clause on a template with one known placeholder,
one unknown placeholder and surrounding literals. -/
theorem renderTemplate_spec_witness :
    renderTemplate (String.mk (flatToksL
        [Tok.lit "Hello ", Tok.hole "" "name" " ", Tok.lit ", from ",
         Tok.hole " " "nowhere" ""]))
      (fun k => if k = "name" then some "World" else none) =
      "Hello World, from \x7b\x7b nowhere\x7d\x7d" := by
  exact (renderTemplate_spec.1 (fun k => if k = "name" then some "World" else none)
    [Tok.lit "Hello ", Tok.hole "" "name" " ", Tok.lit ", from ",
     Tok.hole " " "nowhere" ""] (by decide)).trans (by rfl)

/-- C9: in the replacement mapping of `buildScript`, personalization entries
shadow the six fixed keys, so a personalization entry named like a fixed key
supplies the value used for every placeholder substitution of that key. -/
theorem replacements_personalization_override (lesson : LessonDoc)
    (languageCode targetLevel uid : String) (p : List (String × String))
    (k v : String) (hk : k ∈ fixedReplacementKeys) (hp : plookup p k = some v) :
    scriptReplacements lesson languageCode targetLevel uid p k = some v ∧
    renderTemplate (String.mk (flatTokL (.hole "" k "")))
      (scriptReplacements lesson languageCode targetLevel uid p) = v := by
  have h1 : scriptReplacements lesson languageCode targetLevel uid p k = some v := by
    simp [scriptReplacements, hp]
  refine ⟨h1, ?_⟩
  have hok : tokOkB (Tok.hole "" k "") = true := by
    fin_cases hk <;> decide
  have hflat : flatTokL (Tok.hole "" k "") = flatToksL [Tok.hole "" k ""] := by
    simp [flatToksL]
  rw [hflat]
  unfold renderTemplate
  rw [string_mk_data,
    renderFuel_toks (scriptReplacements lesson languageCode targetLevel uid p)
      [Tok.hole "" k ""]
      (fun t ht => by
        simp at ht
        subst ht
        exact hok) _ le_rfl]
  simp [renderToksL, renderTokL, h1, strMk_of_data]

/-- Witness for C9: a personalization entry literally named `language_code`
overrides the fixed value for both lookup and placeholder rendering. -/
theorem replacements_personalization_override_witness :
    scriptReplacements lessonFixture "en" "B1" "u1"
      [("language_code", "OVERRIDE")] "language_code" = some "OVERRIDE" ∧
    renderTemplate (String.mk (flatTokL (.hole "" "language_code" "")))
      (scriptReplacements lessonFixture "en" "B1" "u1"
        [("language_code", "OVERRIDE")]) = "OVERRIDE" :=
  replacements_personalization_override lessonFixture "en" "B1" "u1"
    [("language_code", "OVERRIDE")] "language_code" "OVERRIDE" (by decide) rfl

end SpeakFlow
